import Mathlib

/-!
A verification development for the aSentrX feed-monitoring and trading core.

The definitions below are a shallow embedding of the Python sources:
 * `src/socialmedia/truesocial.py` — watermark tracking, blocking-aware retry,
   batch processing and the trade decision logic;
 * `src/ai/asentrx_agent.py` — the three-stage classification cascade;
 * `src/trader/trader.py` — limit-price computation and order submission;
 * `src/utils/status_parser.py` — raw status parsing and validity.

Python floats are modelled as `ℚ`; feed IDs stay `String`.  String
primitives (`int()`, `<` on strings, `.lower()`, `in`, `.strip()`
truthiness) are re-implemented over `String.toList` so that every
definition evaluates by kernel reduction.  External collaborators (the
HTTP transport, the LLM classifier agents, the exchange client) are
modelled as oracles passed in as parameters.
-/

/-! ## String primitives (models of the Python built-ins used by the core) -/

/-- Decimal digit value of a character, if it is one. -/
def char_digit? (c : Char) : Option Nat :=
  if c.val ≥ 48 && c.val ≤ 57 then some (c.toNat - 48) else none

/-- Accumulate decimal digits; `none` accumulator means no digit seen yet. -/
def digits_to_nat : List Char → Option Nat → Option Nat
  | [], acc => acc
  | c :: rest, acc =>
    match char_digit? c, acc with
    | some d, some n => digits_to_nat rest (some (n * 10 + d))
    | some d, none => digits_to_nat rest (some d)
    | none, _ => none

/-- Model of Python `int(s)` as applied to feed IDs: an optional minus sign
followed by decimal digits (feed IDs are plain digit strings; the extra
Python `int()` liberalities — surrounding whitespace, `+`, underscores —
do not arise for them and are not modelled). -/
def py_int? (s : String) : Option Int :=
  match s.toList with
  | [] => none
  | '-' :: rest =>
    match digits_to_nat rest none with
    | some n => some (-(n : Int))
    | none => none
  | l =>
    match digits_to_nat l none with
    | some n => some (n : Int)
    | none => none

/-- Python `<` on single characters: code-point comparison. -/
def char_lt (a b : Char) : Bool := decide (a.toNat < b.toNat)

/-- Python `<` on strings, as character lists: lexicographic by code point,
a strict prefix being smaller. -/
def chars_lt : List Char → List Char → Bool
  | [], [] => false
  | [], _ :: _ => true
  | _ :: _, [] => false
  | a :: as_, b :: bs => char_lt a b || (decide (a = b) && chars_lt as_ bs)

/-- Python `a < b` on strings. -/
def py_str_lt (a b : String) : Bool := chars_lt a.toList b.toList

/-- Python `s.lower()` (ASCII case folding; the indicator strings and the
error texts compared by the core are ASCII). -/
def py_lower (s : String) : String := String.mk (s.toList.map Char.toLower)

/-- `needle` starts the list `hay`. -/
def chars_starts_with : List Char → List Char → Bool
  | [], _ => true
  | _ :: _, [] => false
  | a :: as_, b :: bs => decide (a = b) && chars_starts_with as_ bs

/-- `needle` occurs somewhere inside `hay`. -/
def chars_sub (needle : List Char) : List Char → Bool
  | [] => needle.isEmpty
  | c :: rest => chars_starts_with needle (c :: rest) || chars_sub needle rest

/-- Python `needle in hay` for strings. -/
def py_contains (hay needle : String) : Bool := chars_sub needle.toList hay.toList

/-- Python truthiness of `s and s.strip()`: the string has at least one
non-whitespace character. -/
def py_has_visible_char (s : String) : Bool := s.toList.any fun c => !c.isWhitespace

/-! ## Watermark ordering and update
(`TrueSocial.fetch_and_process_statuses`, truesocial.py lines 763-799) -/

/-- truesocial.py lines 777-786: a candidate ID `cand` counts as newer than
the stored ID `old` by numeric comparison when both parse as integers, and
by lexicographic string comparison otherwise (the `except ValueError`
fallback triggers when either conversion fails). -/
def newer_than (cand old : String) : Bool :=
  match py_int? old, py_int? cand with
  | some oldInt, some candInt => decide (oldInt < candInt)
  | _, _ => py_str_lt old cand

/-- truesocial.py lines 770-786: `is_newer` — any ID is newer than `None`,
otherwise compare by `newer_than`. -/
def is_newer (last_known_id : Option String) (cand : String) : Bool :=
  match last_known_id with
  | none => true
  | some old => newer_than cand old

/-- A fetched status dictionary, reduced to the fields the core reads:
`pid` models the optional `'id'` entry (already passed through `str()`), and
`content` models the HTML-cleaned text `parser.get_content(clean_html=True)`
(`none` when the `'content'` key is absent).  Raw statuses arrive as Python
dicts of literals, and `str()` followed by `ast.literal_eval` round-trips
such a dict, so the `parser.is_valid()` check in the batch loop always
passes for them. -/
structure Status where
  pid : Option String
  content : Option String
deriving DecidableEq, Repr

/-- truesocial.py lines 763-799: after the batch loop, the candidate new
watermark is the ID of the first (newest) element of the batch; it replaces
the current watermark iff `is_newer`; a batch whose newest element has no
`'id'` key leaves the watermark unchanged (a warning is logged). -/
def update_watermark (w : Option String) (statuses : List Status) : Option String :=
  match statuses with
  | [] => w
  | newest :: _ =>
    match newest.pid with
    | none => w
    | some cand => if is_newer w cand then some cand else w

/-! ## Blocking classification and the retry loop
(truesocial.py lines 573-599 and 601-709) -/

/-- truesocial.py lines 586-597: the blocking indicators list. -/
def blocking_indicators : List String :=
  ["403", "429", "blocked", "rate limit", "access denied", "forbidden",
   "captcha", "cloudflare", "security check", "cannot authenticate"]

/-- truesocial.py lines 573-599: `TrueSocial._is_blocked_error` — the
lowercased error text is scanned for any blocking indicator. -/
def is_blocked_error (errText : String) : Bool :=
  blocking_indicators.any fun ind => py_contains (py_lower errText) ind

/-- One attempt of `api.pull_statuses`: either a successful batch
(newest-first, as truthbrush yields it) or a raised error, abstracted to
its text (`SystemExit` and generic exceptions take the same retry branch
in the source, so one failure form covers both). -/
inductive AttemptOutcome where
  | success (statuses : List Status)
  | failure (errText : String)
deriving DecidableEq

/-- Result of the retry loop in truesocial.py lines 610-709.  `result` is
the fetched batch on success; `attempts` lists the attempt indices actually
made, in order (each attempt opens a fresh proxy session via the
`_make_session` override, i.e. requests a new egress identity); `backoffs`
counts the `time.sleep(2)` calls separating consecutive attempts. -/
structure FetchTrace where
  result : Option (List Status)
  attempts : List Nat
  backoffs : Nat
deriving DecidableEq

/-- truesocial.py lines 610-709, the `for attempt in range(1, max_retries+1)`
loop.  `left` is the number of attempts still allowed after the current one
(so `left = 0` exactly when `attempt = max_retries`).  A success breaks the
loop; a failure retries — after a backoff sleep and with a fresh proxy
session — only when `_is_blocked_error` matched, the proxy is configured,
and `attempt < max_retries`; otherwise the cycle is abandoned. -/
def run_attempts_aux (proxy : Bool) (oracle : Nat → AttemptOutcome) :
    Nat → Nat → FetchTrace
  | attempt, 0 =>
    match oracle attempt with
    | .success sts => ⟨some sts, [attempt], 0⟩
    | .failure _ => ⟨none, [attempt], 0⟩
  | attempt, left + 1 =>
    match oracle attempt with
    | .success sts => ⟨some sts, [attempt], 0⟩
    | .failure e =>
      if is_blocked_error e && proxy then
        let t := run_attempts_aux proxy oracle (attempt + 1) left
        ⟨t.result, attempt :: t.attempts, t.backoffs + 1⟩
      else ⟨none, [attempt], 0⟩

/-- Configuration slice used by the retry loop: the proxy enable flag and
the raw `DECODO_PROXY_MAX_RETRIES` environment value. -/
structure FetchConfig where
  proxy_enabled : Bool
  decodo_max_retries_env : Int
deriving DecidableEq

/-- truesocial.py line 34: `max(1, int(os.getenv("DECODO_PROXY_MAX_RETRIES", "3")))`. -/
def decodo_proxy_max_retries (cfg : FetchConfig) : Nat :=
  (max 1 cfg.decodo_max_retries_env).toNat

/-- truesocial.py line 606: `max_retries = DECODO_PROXY_MAX_RETRIES if
self.proxy_config else 1`. -/
def max_retries (cfg : FetchConfig) : Nat :=
  if cfg.proxy_enabled then decodo_proxy_max_retries cfg else 1

/-- The whole retry loop, starting at attempt 1. -/
def run_attempts (cfg : FetchConfig) (oracle : Nat → AttemptOutcome) : FetchTrace :=
  run_attempts_aux cfg.proxy_enabled oracle 1 (max_retries cfg - 1)

/-! ## The classification cascade (`ContentAnalyzer.analyze_content`,
asentrx_agent.py lines 92-167) -/

/-- asentrx_agent.py lines 14-17: output model of the first (topic) agent. -/
structure FirstClassification where
  classification : String
  confidence : ℚ
  reasoning : String
deriving DecidableEq

/-- asentrx_agent.py lines 20-23: output model of the Bitcoin-impact agent. -/
structure BitcoinClassification where
  bitcoin_impact : Bool
  confidence : ℚ
  reasoning : String
deriving DecidableEq

/-- asentrx_agent.py lines 26-30: output model of the price-direction agent. -/
structure BitcoinPriceDirection where
  direction : String
  confidence : ℚ
  reasoning : String
deriving DecidableEq

/-- Possible outcomes of one `agent.run_sync(content)` call as the cascade
distinguishes them: the expected output model, the `Failed` sentinel, an
unexpected model type (the `else: logger.error(...)` branches), or a raised
exception (caught by the surrounding `try`). -/
inductive AgentResult (α : Type) where
  | output (a : α)
  | failed
  | unexpected
  | raises
deriving DecidableEq

/-- The three cascade stages. -/
inductive Stage where
  | topic
  | impact
  | direction
deriving DecidableEq, Repr

/-- The external classifier, one oracle per agent, each a function of the
post content. -/
structure Classifier where
  stage1 : String → AgentResult FirstClassification
  stage2 : String → AgentResult BitcoinClassification
  stage3 : String → AgentResult BitcoinPriceDirection

/-- The analysis record the caller in truesocial.py lines 740-755 expects
to read off the value returned by `analyze_content` (attributes
`topic_classification`, `topic_confidence`, `price_direction`,
`price_confidence`). -/
structure AnalysisResult where
  topic_classification : Option String
  topic_confidence : Option ℚ
  price_direction : Option String
  price_confidence : Option ℚ
deriving DecidableEq

/-- What one run of `analyze_content` did: which agents it invoked, in
order, and the Python return value of the method. -/
structure AnalyzeRun where
  invoked : List Stage
  retval : Option AnalysisResult
deriving DecidableEq

/-- asentrx_agent.py lines 92-167: `ContentAnalyzer.analyze_content`.
Stage 1 always runs; stage 2 runs only when stage 1 produced a
`FirstClassification` with `classification == "market"`; stage 3 runs only
when stage 2 produced a `BitcoinClassification` with `bitcoin_impact is
True`.  Every branch only logs; the method body has no `return` statement,
so each path yields Python `None` (`retval := none`). -/
def analyze_content (cl : Classifier) (content : String) : AnalyzeRun :=
  match cl.stage1 content with
  | .failed => ⟨[.topic], none⟩
  | .unexpected => ⟨[.topic], none⟩
  | .raises => ⟨[.topic], none⟩
  | .output fc =>
    if fc.classification = "market" then
      match cl.stage2 content with
      | .failed => ⟨[.topic, .impact], none⟩
      | .unexpected => ⟨[.topic, .impact], none⟩
      | .raises => ⟨[.topic, .impact], none⟩
      | .output bc =>
        if bc.bitcoin_impact then
          match cl.stage3 content with
          | .failed => ⟨[.topic, .impact, .direction], none⟩
          | .unexpected => ⟨[.topic, .impact, .direction], none⟩
          | .raises => ⟨[.topic, .impact, .direction], none⟩
          | .output _ => ⟨[.topic, .impact, .direction], none⟩
        else ⟨[.topic, .impact], none⟩
    else ⟨[.topic], none⟩

/-! ## The batch loop and the full fetch cycle
(truesocial.py lines 601-799) -/

/-- The Python exceptions the embedded batch loop can raise. -/
inductive PyError where
  | attributeError
deriving DecidableEq, Repr

/-- truesocial.py line 738: `if content_cleaned and content_cleaned.strip():`. -/
def content_nonempty : Option String → Bool
  | none => false
  | some s => py_has_visible_char s

/-- Outcome of the `for status_dict in reversed(statuses)` loop:
`processed` are the statuses the loop iterated, `analyzed` those for which
`analyze_content` was invoked, `error` the exception (if any) that escaped
the loop body and aborted the iteration. -/
structure BatchLoopResult where
  processed : List Status
  analyzed : List Status
  error : Option PyError
deriving DecidableEq

/-- truesocial.py lines 717-761: the batch loop, over the already-reversed
list (oldest first).  For a post with visible content the loop stores
`analysis_result = self.content_analyzer.analyze_content(...)` and then
immediately evaluates `analysis_result.topic_confidence` (line 743); when
the stored value is Python `None` that attribute access raises
`AttributeError`, which nothing in the loop catches, so iteration stops
there.  Posts without visible content skip analysis and the loop moves
on. -/
def process_batch (cl : Classifier) : List Status → BatchLoopResult
  | [] => ⟨[], [], none⟩
  | s :: rest =>
    if content_nonempty s.content then
      match (analyze_content cl (s.content.getD "")).retval with
      | none => ⟨[s], [s], some .attributeError⟩
      | some _ =>
        let r := process_batch cl rest
        ⟨s :: r.processed, s :: r.analyzed, r.error⟩
    else
      let r := process_batch cl rest
      ⟨s :: r.processed, r.analyzed, r.error⟩

/-- Observable outcome of one `fetch_and_process_statuses` call. -/
structure CycleResult where
  watermark : Option String
  fetch_ok : Bool
  attempts : List Nat
  backoffs : Nat
  processed : List Status
  analyzed : List Status
  raised : Option PyError
deriving DecidableEq

/-- truesocial.py lines 601-799: `TrueSocial.fetch_and_process_statuses`,
for one monitored account with current watermark `w`.  A failed fetch
returns early (watermark untouched); an empty successful batch returns
early; otherwise the batch loop runs over `reversed(statuses)` and — only
if no exception escaped the loop — the watermark update block at lines
763-799 executes.  An exception escaping the loop propagates to the caller
(`run`), recorded in `raised`. -/
def fetch_and_process_statuses (cfg : FetchConfig) (cl : Classifier)
    (oracle : Nat → AttemptOutcome) (w : Option String) : CycleResult :=
  let t := run_attempts cfg oracle
  match t.result with
  | none => ⟨w, false, t.attempts, t.backoffs, [], [], none⟩
  | some statuses =>
    if statuses.isEmpty then ⟨w, true, t.attempts, t.backoffs, [], [], none⟩
    else
      let r := process_batch cl statuses.reverse
      match r.error with
      | some e => ⟨w, true, t.attempts, t.backoffs, r.processed, r.analyzed, some e⟩
      | none =>
        ⟨update_watermark w statuses, true, t.attempts, t.backoffs,
          r.processed, r.analyzed, none⟩

/-- The watermark values seen across a sequence of fetch cycles (the value
before the first cycle, then the value after each cycle). -/
def watermark_trace (cfg : FetchConfig) (cl : Classifier) :
    Option String → List (Nat → AttemptOutcome) → List (Option String)
  | w, [] => [w]
  | w, oracle :: rest =>
    w :: watermark_trace cfg cl (fetch_and_process_statuses cfg cl oracle w).watermark rest

/-! ## The trade decision step (`TrueSocial._execute_trade_logic`,
truesocial.py lines 378-515) -/

/-- The trading configuration of truesocial.py lines 39-74, one field per
environment-derived module constant.  Amounts, thresholds and offsets are
floats (`ℚ` here); leverages are ints.  There is no bitcoin-specific limit
offset in the source: only `LIMIT_OFFSET_BUY` and `LIMIT_OFFSET_SHORT`
exist (lines 72-74). -/
structure TradeConfig where
  order_amount_buy_high_conf : ℚ
  order_amount_short_high_conf : ℚ
  order_amount_buy_med_conf : ℚ
  order_amount_short_med_conf : ℚ
  leverage_buy_high_conf : Int
  leverage_short_high_conf : Int
  leverage_buy_med_conf : Int
  leverage_short_med_conf : Int
  order_amount_bitcoin_buy_high_conf : ℚ
  order_amount_bitcoin_short_high_conf : ℚ
  order_amount_bitcoin_buy_med_conf : ℚ
  order_amount_bitcoin_short_med_conf : ℚ
  leverage_bitcoin_buy_high_conf : Int
  leverage_bitcoin_short_high_conf : Int
  leverage_bitcoin_buy_med_conf : Int
  leverage_bitcoin_short_med_conf : Int
  confidence_threshold_high : ℚ
  confidence_threshold_med : ℚ
  confidence_threshold_bitcoin_high : ℚ
  confidence_threshold_bitcoin_med : ℚ
  limit_offset_buy : ℚ
  limit_offset_short : ℚ
deriving DecidableEq

/-- The `order_to_execute` dictionary built at truesocial.py lines 471-476
and 502-507. -/
structure OrderCmd where
  amount : ℚ
  limit_offset_percentage : ℚ
  leverage : Int
  description : String
deriving DecidableEq

/-- The per-topic parameter selection of truesocial.py lines 417-443: the
bitcoin-specific amounts, leverages and confidence thresholds for topic
`"bitcoin"`, the generic ones for every other relevant topic. -/
structure TopicParams where
  amount_buy_high : ℚ
  amount_short_high : ℚ
  amount_buy_med : ℚ
  amount_short_med : ℚ
  leverage_buy_high : Int
  leverage_short_high : Int
  leverage_buy_med : Int
  leverage_short_med : Int
  threshold_high : ℚ
  threshold_med : ℚ
deriving DecidableEq

/-- truesocial.py lines 417-443. -/
def topic_params (cfg : TradeConfig) (topic_lower : String) : TopicParams :=
  if topic_lower = "bitcoin" then
    ⟨cfg.order_amount_bitcoin_buy_high_conf, cfg.order_amount_bitcoin_short_high_conf,
     cfg.order_amount_bitcoin_buy_med_conf, cfg.order_amount_bitcoin_short_med_conf,
     cfg.leverage_bitcoin_buy_high_conf, cfg.leverage_bitcoin_short_high_conf,
     cfg.leverage_bitcoin_buy_med_conf, cfg.leverage_bitcoin_short_med_conf,
     cfg.confidence_threshold_bitcoin_high, cfg.confidence_threshold_bitcoin_med⟩
  else
    ⟨cfg.order_amount_buy_high_conf, cfg.order_amount_short_high_conf,
     cfg.order_amount_buy_med_conf, cfg.order_amount_short_med_conf,
     cfg.leverage_buy_high_conf, cfg.leverage_short_high_conf,
     cfg.leverage_buy_med_conf, cfg.leverage_short_med_conf,
     cfg.confidence_threshold_high, cfg.confidence_threshold_med⟩

/-- truesocial.py lines 378-515: the decision portion of
`_execute_trade_logic`, from the analysis fields to the order it would
execute (or no order).  Mirrors the source: reject when `topic` or
`direction` is missing/empty (Python truthiness) or `confidence is None`;
reject topics outside the relevant set; pick the parameter table by topic;
tier by `confidence >= threshold` with the high tier checked first; the
limit offset is `LIMIT_OFFSET_BUY` for "up" rows and `LIMIT_OFFSET_SHORT`
for "down" rows; "neutral" and unknown directions produce no order.  (The
source also guards `current_amount is not None and current_leverage is not
None`, which always holds since the module constants are parsed floats and
ints.) -/
def decide_trade (cfg : TradeConfig) (topic direction : Option String)
    (confidence : Option ℚ) : Option OrderCmd :=
  match topic, direction, confidence with
  | some t, some d, some conf =>
    if t = "" || d = "" then none
    else
      let tl := py_lower t
      let dl := py_lower d
      if !(tl = "bitcoin" || tl = "market" || tl = "tariffs") then none
      else
        let p := topic_params cfg tl
        if dl = "up" then
          if conf ≥ p.threshold_high then
            some ⟨p.amount_buy_high, cfg.limit_offset_buy, p.leverage_buy_high,
              "BUY (High-Confidence UP)"⟩
          else if conf ≥ p.threshold_med then
            some ⟨p.amount_buy_med, cfg.limit_offset_buy, p.leverage_buy_med,
              "BUY (Medium-Confidence UP)"⟩
          else none
        else if dl = "down" then
          if conf ≥ p.threshold_high then
            some ⟨p.amount_short_high, cfg.limit_offset_short, p.leverage_short_high,
              "SHORT (High-Confidence DOWN)"⟩
          else if conf ≥ p.threshold_med then
            some ⟨p.amount_short_med, cfg.limit_offset_short, p.leverage_short_med,
              "SHORT (Medium-Confidence DOWN)"⟩
          else none
        else none
  | _, _, _ => none

/-- Modelled from the spec: the DecisionEngine algorithm of spec §4.3,
written from the spec's own wording — reject unless topic, direction and
price confidence are all present; reject unless the topic is in the
tradable set, comparing case-insensitively as the tracker does; for "up"
pick the high-confidence buy row when the confidence clears the topic
table's high threshold (boundary inclusive), else the medium-confidence
buy row when it clears the medium threshold, else no order; "down" is
symmetric with the short rows; "neutral" (or anything else) yields no
order.  To be compared with `decide_trade`, the definition taken from the
source. -/
def decide_spec (cfg : TradeConfig) (topic direction : Option String)
    (confidence : Option ℚ) : Option OrderCmd :=
  match topic, direction, confidence with
  | some t, some d, some conf =>
    let tl := py_lower t
    let dl := py_lower d
    let p := topic_params cfg tl
    if !(tl = "bitcoin" || tl = "market" || tl = "tariffs") then none
    else if dl = "up" then
      if conf ≥ p.threshold_high then
        some ⟨p.amount_buy_high, cfg.limit_offset_buy, p.leverage_buy_high,
          "BUY (High-Confidence UP)"⟩
      else if conf ≥ p.threshold_med then
        some ⟨p.amount_buy_med, cfg.limit_offset_buy, p.leverage_buy_med,
          "BUY (Medium-Confidence UP)"⟩
      else none
    else if dl = "down" then
      if conf ≥ p.threshold_high then
        some ⟨p.amount_short_high, cfg.limit_offset_short, p.leverage_short_high,
          "SHORT (High-Confidence DOWN)"⟩
      else if conf ≥ p.threshold_med then
        some ⟨p.amount_short_med, cfg.limit_offset_short, p.leverage_short_med,
          "SHORT (Medium-Confidence DOWN)"⟩
      else none
    else none
  | _, _, _ => none

/-! ## Order execution (`Trader.execute_order`, trader.py lines 31-125) -/

/-- trader.py line 17. -/
def DERIV_STATUS_LAST_PRICE_IDX : Nat := 3

/-- trader.py line 18. -/
def DERIV_STATUS_MARK_PRICE_IDX : Nat := 15

/-- The order submission request handed to
`bfx_trader.submit_order(symbol, amount, price, lev, type="LIMIT")`. -/
structure Submission where
  amount : ℚ
  price : ℚ
  leverage : Int
deriving DecidableEq

/-- trader.py lines 31-125: `Trader.execute_order`, up to the gateway
call.  The derivative status response is `none` for a falsy reply,
otherwise a list of rows whose entries may each be a number or Python
`None`.  The first row must be long enough to index both price fields;
the mark price (index 15) is preferred, the last price (index 3) is the
fallback, and with neither present the order is aborted before
submission.  `limit_price = current_price * (1 + offset)` when
`amount > 0`, else `current_price * (1 - offset)`.  The returned value is
the submission actually made (`none` = aborted, nothing submitted). -/
def execute_order (status_data_list : Option (List (List (Option ℚ))))
    (amount : ℚ) (leverage : Int) (limit_offset_percentage : ℚ) : Option Submission :=
  match status_data_list with
  | none => none
  | some [] => none
  | some (status_data :: _) =>
    if status_data.length ≤ max DERIV_STATUS_MARK_PRICE_IDX DERIV_STATUS_LAST_PRICE_IDX
    then none
    else
      let mark_price_val := status_data.getD DERIV_STATUS_MARK_PRICE_IDX none
      let last_price_val := status_data.getD DERIV_STATUS_LAST_PRICE_IDX none
      let current_price? : Option ℚ :=
        match mark_price_val with
        | some m => some m
        | none => last_price_val
      match current_price? with
      | none => none
      | some current_price =>
        let limit_price :=
          if amount > 0 then current_price * (1 + limit_offset_percentage)
          else current_price * (1 - limit_offset_percentage)
        some ⟨amount, limit_price, leverage⟩

/-! ## Status parsing (`StatusParser`, status_parser.py) -/

/-- Outcome of `ast.literal_eval` on the raw status string, as the
constructor distinguishes it: a dictionary (modelled as an association
list of its string-valued entries), a non-dictionary literal, or a raised
`ValueError`/`SyntaxError`/`TypeError` with its message text. -/
inductive LiteralEvalOutcome where
  | dict (d : List (String × String))
  | nondict
  | error (msg : String)
deriving DecidableEq

/-- The two instance attributes `StatusParser.__init__` sets. -/
structure StatusParserState where
  status_data : Option (List (String × String))
  parse_error : Option String
deriving DecidableEq

/-- status_parser.py lines 11-32: `StatusParser.__init__`.  A dict keeps
the data with no error; a non-dict literal records an error message and
leaves `status_data = None`; an exception records its message and sets
`status_data = {}` (the empty dictionary). -/
def status_parser_init_state : LiteralEvalOutcome → StatusParserState
  | .dict d => ⟨some d, none⟩
  | .nondict => ⟨none, some "Evaluated data is not a dictionary."⟩
  | .error msg => ⟨some [], some msg⟩

/-- Python truthiness of the optional `parse_error` string. -/
def py_truthy_opt_str : Option String → Bool
  | none => false
  | some s => s != ""

/-- status_parser.py lines 99-103: `StatusParser.is_valid` —
`self.status_data is not None and not self.parse_error and
isinstance(self.status_data, dict)` (the last conjunct always holds when
`status_data` is set, since only dictionaries are ever stored). -/
def parser_is_valid (p : StatusParserState) : Bool :=
  p.status_data.isSome && !(py_truthy_opt_str p.parse_error)

/-- status_parser.py lines 44-57: `get_attribute` — `None` unless
`status_data` is truthy (the empty dict is falsy) and holds the key. -/
def get_attribute (p : StatusParserState) (attribute_name : String) : Option String :=
  match p.status_data with
  | none => none
  | some d => (d.find? fun kv => kv.1 == attribute_name).map fun kv => kv.2

/-- status_parser.py lines 59-62: the `id` property. -/
def parser_id (p : StatusParserState) : Option String :=
  get_attribute p "id"

/-! ## Properties of the ID ordering rule -/

lemma chars_lt_irrefl (l : List Char) : chars_lt l l = false := by
  induction l with
  | nil => rfl
  | cons a as_ ih => simp [chars_lt, char_lt, ih]

lemma chars_lt_asymm : ∀ x y : List Char, chars_lt x y = true → chars_lt y x = false := by
  intro x
  induction x with
  | nil =>
    intro y h
    cases y with
    | nil => simp [chars_lt] at h
    | cons b bs => simp [chars_lt]
  | cons a as_ ih =>
    intro y h
    cases y with
    | nil => simp [chars_lt] at h
    | cons b bs =>
      simp only [chars_lt, char_lt, Bool.or_eq_true, Bool.and_eq_true,
        decide_eq_true_eq] at h
      rcases h with h | ⟨hab, h2⟩
      · have h1 : char_lt b a = false := by
          simp only [char_lt, decide_eq_false_iff_not]
          omega
        have h3 : decide (b = a) = false := by
          simp only [decide_eq_false_iff_not]
          intro e
          subst e
          omega
        simp [chars_lt, h1, h3]
      · subst hab
        have h1 : char_lt a a = false := by
          simp only [char_lt, decide_eq_false_iff_not]
          omega
        simp [chars_lt, h1, ih bs h2]

lemma newer_than_irrefl (a : String) : newer_than a a = false := by
  unfold newer_than
  cases h : py_int? a with
  | some n => simp
  | none => simp [py_str_lt, chars_lt_irrefl]

lemma newer_than_asymm (c o : String) (h : newer_than c o = true) :
    newer_than o c = false := by
  unfold newer_than at h ⊢
  cases ho : py_int? o <;> cases hc : py_int? c <;>
    simp only [ho, hc] at h ⊢
  · exact chars_lt_asymm _ _ h
  · exact chars_lt_asymm _ _ h
  · exact chars_lt_asymm _ _ h
  · simp only [decide_eq_true_eq] at h
    simp only [decide_eq_false_iff_not]
    omega

/-- The watermark `after` is not older than the watermark `before` under
the tracker's ordering rule (`None` counts as oldest). -/
def not_older (after before : Option String) : Prop :=
  match before, after with
  | none, _ => True
  | some _, none => False
  | some b, some a => newer_than b a = false

lemma not_older_self (w : Option String) : not_older w w := by
  cases w with
  | none => trivial
  | some b => exact newer_than_irrefl b

lemma not_older_of_is_newer (w : Option String) (c : String)
    (h : is_newer w c = true) : not_older (some c) w := by
  cases w with
  | none => trivial
  | some b => exact newer_than_asymm c b h

lemma update_watermark_cases (w : Option String) (statuses : List Status) :
    update_watermark w statuses = w ∨
      ∃ c, is_newer w c = true ∧ update_watermark w statuses = some c := by
  cases statuses with
  | nil => exact Or.inl rfl
  | cons s rest =>
    cases hp : s.pid with
    | none => exact Or.inl (by simp only [update_watermark, hp])
    | some c =>
      by_cases hn : is_newer w c = true
      · exact Or.inr ⟨c, hn, by simp only [update_watermark, hp]; simp [hn]⟩
      · simp only [Bool.not_eq_true] at hn
        exact Or.inl (by simp only [update_watermark, hp]; simp [hn])

lemma cycle_watermark_cases (cfg : FetchConfig) (cl : Classifier)
    (oracle : Nat → AttemptOutcome) (w : Option String) :
    (fetch_and_process_statuses cfg cl oracle w).watermark = w ∨
      ∃ c, is_newer w c = true ∧
        (fetch_and_process_statuses cfg cl oracle w).watermark = some c := by
  unfold fetch_and_process_statuses
  cases hr : (run_attempts cfg oracle).result with
  | none => simp [hr]
  | some statuses =>
    simp only [hr]
    by_cases he : statuses.isEmpty
    · simp [he]
    · simp only [he, if_false]
      cases herr : (process_batch cl statuses.reverse).error with
      | some e => simp [herr]
      | none =>
        simp only [herr]
        exact update_watermark_cases w statuses

lemma cycle_not_older (cfg : FetchConfig) (cl : Classifier)
    (oracle : Nat → AttemptOutcome) (w : Option String) :
    not_older (fetch_and_process_statuses cfg cl oracle w).watermark w := by
  rcases cycle_watermark_cases cfg cl oracle w with h | ⟨c, hn, h⟩
  · rw [h]; exact not_older_self w
  · rw [h]; exact not_older_of_is_newer w c hn

lemma watermark_trace_cons (cfg : FetchConfig) (cl : Classifier)
    (w : Option String) (oracle : Nat → AttemptOutcome)
    (rest : List (Nat → AttemptOutcome)) :
    watermark_trace cfg cl w (oracle :: rest) =
      w :: watermark_trace cfg cl
        (fetch_and_process_statuses cfg cl oracle w).watermark rest := rfl

lemma watermark_trace_chain (cfg : FetchConfig) (cl : Classifier) :
    ∀ (oracles : List (Nat → AttemptOutcome)) (w : Option String),
      List.Chain' (fun before after => not_older after before)
        (watermark_trace cfg cl w oracles) := by
  intro oracles
  induction oracles with
  | nil => intro w; simp [watermark_trace]
  | cons o os ih =>
    intro w
    rw [watermark_trace_cons]
    cases os with
    | nil =>
      simp only [watermark_trace]
      exact List.chain'_pair.mpr (cycle_not_older cfg cl o w)
    | cons o2 os2 =>
      rw [watermark_trace_cons]
      exact List.Chain'.cons (cycle_not_older cfg cl o w)
        (by rw [← watermark_trace_cons]; exact ih _)

/-- C1: For every sequence of processed fetch batches, the tracker's
watermark (`last_known_id`) is monotonically non-decreasing under the ID
ordering rule (numeric comparison when both IDs parse as integers,
otherwise lexicographic string comparison): after
`fetch_and_process_statuses` completes — whatever the fetch outcomes, the
batch contents and the classifier behaviour — the watermark is never older
than it was before the call, starting from the externally supplied seed or
`None`; across a whole sequence of cycles every consecutive pair of
watermark values satisfies the same rule. -/
theorem watermark_monotone_under_ordering_rule (cfg : FetchConfig)
    (cl : Classifier) (oracle : Nat → AttemptOutcome) (w : Option String)
    (oracles : List (Nat → AttemptOutcome)) :
    not_older (fetch_and_process_statuses cfg cl oracle w).watermark w ∧
      List.Chain' (fun before after => not_older after before)
        (watermark_trace cfg cl w oracles) :=
  ⟨cycle_not_older cfg cl oracle w, watermark_trace_chain cfg cl oracles w⟩

/-- C2 (counterexample evidence): on the failing input — current watermark
`"100"`, one successfully fetched status with ID `"101"` and visible
content — the cycle raises `AttributeError` inside the batch loop (the
stored analysis value is Python `None`) and never reaches the
watermark-update block, so the watermark stays `"100"` even though `"101"`
is newer by the ordering rule. -/
theorem crash_prevents_watermark_advance :
    (fetch_and_process_statuses ⟨false, 3⟩
        ⟨fun _ => .failed, fun _ => .failed, fun _ => .failed⟩
        (fun _ => .success [⟨some "101", some "Tariffs are coming"⟩])
        (some "100")).watermark = some "100" ∧
      (fetch_and_process_statuses ⟨false, 3⟩
        ⟨fun _ => .failed, fun _ => .failed, fun _ => .failed⟩
        (fun _ => .success [⟨some "101", some "Tariffs are coming"⟩])
        (some "100")).raised = some .attributeError ∧
      is_newer (some "100") "101" = true := by
  refine ⟨by decide, by decide, by decide⟩

/-- C3 (counterexample evidence): a batch of two posts with visible
content, the classifier failing on the first-processed (older) post: the
loop raises `AttributeError` at that post — the exception escapes the
batch loop — and the second (newer) post is never processed, so a
classifier failure is not contained at the failing post. -/
theorem classifier_failure_not_contained :
    (fetch_and_process_statuses ⟨false, 3⟩
        ⟨fun _ => .failed, fun _ => .failed, fun _ => .failed⟩
        (fun _ => .success [⟨some "102", some "Second post"⟩,
                            ⟨some "101", some "First post"⟩])
        (some "100")).analyzed = [⟨some "101", some "First post"⟩] ∧
      (fetch_and_process_statuses ⟨false, 3⟩
        ⟨fun _ => .failed, fun _ => .failed, fun _ => .failed⟩
        (fun _ => .success [⟨some "102", some "Second post"⟩,
                            ⟨some "101", some "First post"⟩])
        (some "100")).raised = some .attributeError ∧
      (⟨some "102", some "Second post"⟩ : Status) ∉
        (fetch_and_process_statuses ⟨false, 3⟩
          ⟨fun _ => .failed, fun _ => .failed, fun _ => .failed⟩
          (fun _ => .success [⟨some "102", some "Second post"⟩,
                              ⟨some "101", some "First post"⟩])
          (some "100")).processed := by
  refine ⟨by decide, by decide, by decide⟩

/-! ## Cascade properties -/

/-- C10: For every input content string (and any classifier behaviour),
`ContentAnalyzer.analyze_content` returns Python `None`: every branch of
the method only logs, no branch returns a value, so the value the batch
loop stores as the analysis result is always `None` and carries no
classification data back to the caller. -/
theorem analyze_content_returns_none (cl : Classifier) (content : String) :
    (analyze_content cl content).retval = none := by
  unfold analyze_content
  cases h1 : cl.stage1 content with
  | output fc =>
    by_cases hm : fc.classification = "market"
    · simp only [hm, if_pos rfl]
      cases h2 : cl.stage2 content with
      | output bc =>
        by_cases hb : bc.bitcoin_impact = true
        · simp only [hb, if_pos rfl]
          cases h3 : cl.stage3 content <;> rfl
        · simp only [Bool.not_eq_true] at hb
          simp [hb]
      | failed => rfl
      | unexpected => rfl
      | raises => rfl
    · simp [hm]
  | failed => rfl
  | unexpected => rfl
  | raises => rfl

/-- C5: For every input text, the classification cascade makes at most 3
classifier calls, never invokes any stage twice (so no stage is retried
after a classifier failure), and short-circuits: stage 2 is invoked only
when stage 1 produced a `FirstClassification` with topic `"market"` (so a
`failed` or non-market stage-1 result means stages 2 and 3 never run), and
stage 3 is invoked only when stage 2 produced a `BitcoinClassification`
with `bitcoin_impact = true` (so a `failed` or false stage-2 result means
stage 3 never runs). -/
theorem cascade_short_circuit (cl : Classifier) (content : String) :
    (analyze_content cl content).invoked.length ≤ 3 ∧
      (analyze_content cl content).invoked.Nodup ∧
      (Stage.impact ∈ (analyze_content cl content).invoked →
        ∃ fc, cl.stage1 content = .output fc ∧ fc.classification = "market") ∧
      (Stage.direction ∈ (analyze_content cl content).invoked →
        ∃ bc, cl.stage2 content = .output bc ∧ bc.bitcoin_impact = true) := by
  cases h1 : cl.stage1 content with
  | output fc =>
    by_cases hm : fc.classification = "market"
    · cases h2 : cl.stage2 content with
      | output bc =>
        cases hb : bc.bitcoin_impact with
        | true =>
          cases h3 : cl.stage3 content
          all_goals {
            have e : analyze_content cl content =
                ⟨[.topic, .impact, .direction], none⟩ := by
              simp [analyze_content, h1, h2, h3, hb, hm]
            rw [e]
            exact ⟨by decide, by decide, fun _ => ⟨fc, rfl, hm⟩,
              fun _ => ⟨bc, rfl, hb⟩⟩
          }
        | false =>
          have e : analyze_content cl content = ⟨[.topic, .impact], none⟩ := by
            simp [analyze_content, h1, h2, hb, hm]
          rw [e]
          exact ⟨by decide, by decide, fun _ => ⟨fc, rfl, hm⟩,
            fun hmem => absurd hmem (by decide)⟩
      | failed =>
        have e : analyze_content cl content = ⟨[.topic, .impact], none⟩ := by
          simp [analyze_content, h1, h2, hm]
        rw [e]
        exact ⟨by decide, by decide, fun _ => ⟨fc, rfl, hm⟩,
          fun hmem => absurd hmem (by decide)⟩
      | unexpected =>
        have e : analyze_content cl content = ⟨[.topic, .impact], none⟩ := by
          simp [analyze_content, h1, h2, hm]
        rw [e]
        exact ⟨by decide, by decide, fun _ => ⟨fc, rfl, hm⟩,
          fun hmem => absurd hmem (by decide)⟩
      | raises =>
        have e : analyze_content cl content = ⟨[.topic, .impact], none⟩ := by
          simp [analyze_content, h1, h2, hm]
        rw [e]
        exact ⟨by decide, by decide, fun _ => ⟨fc, rfl, hm⟩,
          fun hmem => absurd hmem (by decide)⟩
    · have e : analyze_content cl content = ⟨[.topic], none⟩ := by
        simp [analyze_content, h1, hm]
      rw [e]
      exact ⟨by decide, by decide, fun hmem => absurd hmem (by decide),
        fun hmem => absurd hmem (by decide)⟩
  | failed =>
    have e : analyze_content cl content = ⟨[.topic], none⟩ := by
      simp [analyze_content, h1]
    rw [e]
    exact ⟨by decide, by decide, fun hmem => absurd hmem (by decide),
      fun hmem => absurd hmem (by decide)⟩
  | unexpected =>
    have e : analyze_content cl content = ⟨[.topic], none⟩ := by
      simp [analyze_content, h1]
    rw [e]
    exact ⟨by decide, by decide, fun hmem => absurd hmem (by decide),
      fun hmem => absurd hmem (by decide)⟩
  | raises =>
    have e : analyze_content cl content = ⟨[.topic], none⟩ := by
      simp [analyze_content, h1]
    rw [e]
    exact ⟨by decide, by decide, fun hmem => absurd hmem (by decide),
      fun hmem => absurd hmem (by decide)⟩

/-- Concrete instantiation of `cascade_short_circuit`: a classifier whose
three stages answer market / impact / up. -/
theorem cascade_short_circuit_witness :
    (analyze_content
        ⟨fun _ => .output ⟨"market", 9/10, "topic reasoning"⟩,
         fun _ => .output ⟨true, 85/100, "impact reasoning"⟩,
         fun _ => .output ⟨"up", 95/100, "direction reasoning"⟩⟩
        "A tweet").invoked.length ≤ 3 ∧
      (analyze_content
        ⟨fun _ => .output ⟨"market", 9/10, "topic reasoning"⟩,
         fun _ => .output ⟨true, 85/100, "impact reasoning"⟩,
         fun _ => .output ⟨"up", 95/100, "direction reasoning"⟩⟩
        "A tweet").invoked.Nodup ∧
      (Stage.impact ∈ (analyze_content
        ⟨fun _ => .output ⟨"market", 9/10, "topic reasoning"⟩,
         fun _ => .output ⟨true, 85/100, "impact reasoning"⟩,
         fun _ => .output ⟨"up", 95/100, "direction reasoning"⟩⟩
        "A tweet").invoked →
        ∃ fc, (fun _ => AgentResult.output
            (⟨"market", 9/10, "topic reasoning"⟩ : FirstClassification) :
              String → AgentResult FirstClassification) "A tweet" = .output fc ∧
          fc.classification = "market") ∧
      (Stage.direction ∈ (analyze_content
        ⟨fun _ => .output ⟨"market", 9/10, "topic reasoning"⟩,
         fun _ => .output ⟨true, 85/100, "impact reasoning"⟩,
         fun _ => .output ⟨"up", 95/100, "direction reasoning"⟩⟩
        "A tweet").invoked →
        ∃ bc, (fun _ => AgentResult.output
            (⟨true, 85/100, "impact reasoning"⟩ : BitcoinClassification) :
              String → AgentResult BitcoinClassification) "A tweet" = .output bc ∧
          bc.bitcoin_impact = true) :=
  cascade_short_circuit _ _

/-! ## Decision-step properties -/

/-- C4: The decision step is a pure function of
(topic, direction, price_confidence) and implements exactly the
spec-side decision algorithm `decide_spec`: an order is produced only when
all three inputs are present, the topic is in the tradable set
{bitcoin, market, tariffs} and the direction is "up" or "down"; for "up"
the high-confidence buy row is selected when the confidence clears the
topic table's high threshold, else the medium-confidence buy row when it
clears the medium threshold, else no order; "down" is symmetric with the
short rows; "neutral" always yields no order; a confidence exactly equal
to a threshold belongs to the higher tier (both sides use `>=`). -/
theorem decide_trade_matches_decision_spec (cfg : TradeConfig)
    (topic direction : Option String) (confidence : Option ℚ) :
    decide_trade cfg topic direction confidence =
      decide_spec cfg topic direction confidence := by
  rcases topic with _ | t <;> rcases direction with _ | d <;>
    rcases confidence with _ | c <;> try rfl
  simp only [decide_trade, decide_spec]
  by_cases ht : t = ""
  · subst ht
    have h0 : py_lower "" = "" := by decide
    have hb : decide (("" : String) = "bitcoin") = false := by decide
    have hm : decide (("" : String) = "market") = false := by decide
    have hta : decide (("" : String) = "tariffs") = false := by decide
    simp [h0, hb, hm, hta]
  · by_cases hd : d = ""
    · subst hd
      have h0 : py_lower "" = "" := by decide
      have hup : (("" : String) = "up") = False := by simp
      have hdn : (("" : String) = "down") = False := by simp
      have htf : decide (t = "") = false := by simp [ht]
      simp [h0, hup, hdn, htf]
    · have hcf : (decide (t = "") || decide (d = "")) = false := by simp [ht, hd]
      rw [hcf]
      rfl

/-- A concrete trading configuration with every bitcoin-specific parameter
distinct from its generic counterpart (used to instantiate the decision
theorems on concrete inputs; integer-valued rationals so that the kernel
can evaluate every comparison). -/
def sample_trade_config : TradeConfig :=
  ⟨2, -2, 1, -1,
   10, 10, 5, 5,
   6, -6, 3, -3,
   15, 15, 7, 7,
   95, 90,
   93, 88,
   7, 9⟩

/-- C8 (amended): For every order produced by the decision step, the
`limit_offset` placed in the order comes from the per-direction
configuration only: `LIMIT_OFFSET_BUY` for "up" (buy) orders and
`LIMIT_OFFSET_SHORT` for "down" (short) orders, the same pair of values
for every tradable topic — there is no bitcoin-specific limit offset. -/
theorem limit_offset_per_direction (cfg : TradeConfig)
    (topic direction : Option String) (confidence : Option ℚ) (o : OrderCmd)
    (h : decide_trade cfg topic direction confidence = some o) :
    ∃ d, direction = some d ∧
      ((py_lower d = "up" ∧ o.limit_offset_percentage = cfg.limit_offset_buy) ∨
       (py_lower d = "down" ∧ o.limit_offset_percentage = cfg.limit_offset_short)) := by
  rcases topic with _ | t <;> rcases direction with _ | d <;>
    rcases confidence with _ | c <;> simp only [decide_trade] at h <;>
    try exact Option.noConfusion h
  refine ⟨d, rfl, ?_⟩
  split_ifs at h with h1 h2 h3 h4 h5 h6 h7 h8 <;>
    first
      | exact Option.noConfusion h
      | (injection h with h9; subst h9; exact Or.inl ⟨h3, rfl⟩)
      | (injection h with h9; subst h9; exact Or.inr ⟨h6, rfl⟩)

/-- Concrete instantiation of `limit_offset_per_direction`: the bitcoin
high-confidence buy order carries the generic buy offset. -/
theorem limit_offset_per_direction_witness :
    ∃ d, (some "up" : Option String) = some d ∧
      ((py_lower d = "up" ∧
          (⟨6, 7, 15, "BUY (High-Confidence UP)"⟩ : OrderCmd).limit_offset_percentage =
            sample_trade_config.limit_offset_buy) ∨
       (py_lower d = "down" ∧
          (⟨6, 7, 15, "BUY (High-Confidence UP)"⟩ : OrderCmd).limit_offset_percentage =
            sample_trade_config.limit_offset_short)) :=
  limit_offset_per_direction sample_trade_config (some "bitcoin") (some "up")
    (some 95) ⟨6, 7, 15, "BUY (High-Confidence UP)"⟩ (by decide)

/-- C8 (counterexample): with a configuration in which every
bitcoin-specific parameter differs from its generic counterpart, the
order produced for topic "bitcoin" carries exactly the same limit offset
as the order produced for topic "market" — the generic
`LIMIT_OFFSET_BUY` — so the offset for "bitcoin" is not selected from any
bitcoin-specific configuration. -/
theorem bitcoin_offset_equals_generic_offset :
    (decide_trade sample_trade_config (some "bitcoin") (some "up") (some 95)).map
        (fun o => o.limit_offset_percentage) = some 7 ∧
      (decide_trade sample_trade_config (some "market") (some "up") (some 95)).map
        (fun o => o.limit_offset_percentage) = some 7 ∧
      sample_trade_config.limit_offset_buy = 7 ∧
      (decide_trade sample_trade_config (some "bitcoin") (some "up") (some 95)).map
        (fun o => o.amount) ≠
        (decide_trade sample_trade_config (some "market") (some "up") (some 95)).map
          (fun o => o.amount) := by
  refine ⟨by decide, by decide, by decide, by decide⟩

/-! ## Order-execution properties -/

/-- C7: For every order execution, the reference price is the market-status
mark price (index 15) when present, else the last price (index 3) when the
mark price is absent, and the order is aborted — nothing submitted, result
`None` — when both are absent (or when no market status is available at
all); when a reference price exists, the submitted limit price equals
`reference_price * (1 + limit_offset)` for a positive (long) amount and
`reference_price * (1 - limit_offset)` for a non-positive (short)
amount. -/
theorem execute_order_price_rule (inner : List (Option ℚ))
    (rest : List (List (Option ℚ))) (amount : ℚ) (lev : Int) (off : ℚ)
    (hlen : 15 < inner.length) :
    (∀ m, inner.getD 15 none = some m →
      execute_order (some (inner :: rest)) amount lev off =
        some ⟨amount, if amount > 0 then m * (1 + off) else m * (1 - off), lev⟩) ∧
      (inner.getD 15 none = none →
        ∀ l, inner.getD 3 none = some l →
          execute_order (some (inner :: rest)) amount lev off =
            some ⟨amount, if amount > 0 then l * (1 + off) else l * (1 - off), lev⟩) ∧
      (inner.getD 15 none = none → inner.getD 3 none = none →
        execute_order (some (inner :: rest)) amount lev off = none) ∧
      execute_order none amount lev off = none := by
  have hc : ¬ (inner.length ≤ max DERIV_STATUS_MARK_PRICE_IDX DERIV_STATUS_LAST_PRICE_IDX) := by
    simp only [DERIV_STATUS_MARK_PRICE_IDX, DERIV_STATUS_LAST_PRICE_IDX]
    omega
  refine ⟨?_, ?_, ?_, rfl⟩
  · intro m hm
    simp only [execute_order]
    rw [if_neg hc]
    simp only [DERIV_STATUS_MARK_PRICE_IDX, DERIV_STATUS_LAST_PRICE_IDX, hm]
  · intro hm l hl
    simp only [execute_order]
    rw [if_neg hc]
    simp only [DERIV_STATUS_MARK_PRICE_IDX, DERIV_STATUS_LAST_PRICE_IDX, hm, hl]
  · intro hm hl
    simp only [execute_order]
    rw [if_neg hc]
    simp only [DERIV_STATUS_MARK_PRICE_IDX, DERIV_STATUS_LAST_PRICE_IDX, hm, hl]

/-- Concrete instantiation of `execute_order_price_rule`: mark price 100,
last price 50, long amount 2, offset 1 — the limit price is
100 * (1 + 1) = 200. -/
theorem execute_order_price_rule_witness :
    execute_order (some [[none, none, none, some 50, none, none, none, none,
        none, none, none, none, none, none, none, some 100]]) 2 5 1 =
      some ⟨2, 200, 5⟩ := by
  have h := (execute_order_price_rule
    [none, none, none, some 50, none, none, none, none,
     none, none, none, none, none, none, none, some 100] [] 2 5 1
    (by decide)).1 100 (by decide)
  rw [h, if_pos (by norm_num : (2 : ℚ) > 0)]
  norm_num

/-! ## Status-parser properties -/

/-- C9 (counterexample): a raw status string that parses to a dictionary
with no `'id'` key — for example `"{'content': 'hello'}"` — passes
`is_valid()` even though its parsed record has no id at all
(`parser.id` is `None`), so validity does not require a non-empty id. -/
theorem is_valid_ignores_missing_id :
    parser_is_valid (status_parser_init_state (.dict [("content", "hello")])) = true ∧
      parser_id (status_parser_init_state (.dict [("content", "hello")])) = none := by
  refine ⟨by decide, by decide⟩

/-- C9 (amended): `StatusParser.is_valid()` is true iff `ast.literal_eval`
produced a dictionary (any dictionary, with or without an `'id'` entry) or
raised an exception whose message text is empty (the `status_data = {}`
fallback with a falsy `parse_error`); validity is independent of the `id`
field and of the content field. -/
theorem is_valid_iff_parse_outcome (o : LiteralEvalOutcome) :
    parser_is_valid (status_parser_init_state o) = true ↔
      ((∃ d, o = .dict d) ∨ o = .error "") := by
  cases o with
  | dict d =>
    simp [status_parser_init_state, parser_is_valid, py_truthy_opt_str]
  | nondict =>
    simp [status_parser_init_state, parser_is_valid, py_truthy_opt_str]
  | error msg =>
    simp [status_parser_init_state, parser_is_valid, py_truthy_opt_str]

/-! ## Retry-loop properties -/

lemma mem_range'_bounds : ∀ (n s i : Nat), i ∈ List.range' s n → s ≤ i ∧ i < s + n := by
  intro n
  induction n with
  | zero =>
    intro s i h
    exact absurd h (by simp [List.range'])
  | succ m ih =>
    intro s i h
    have hr : List.range' s (m + 1) = s :: List.range' (s + 1) m := rfl
    rw [hr] at h
    rcases List.mem_cons.mp h with rfl | h2
    · omega
    · have := ih (s + 1) i h2
      omega

lemma head_mem_range' (s n : Nat) (hn : 1 ≤ n) : s ∈ List.range' s n := by
  cases n with
  | zero => omega
  | succ m => exact List.mem_cons_self s (List.range' (s + 1) m)

/-- The specification of the retry loop, relative to the starting attempt
index and the number of further attempts allowed: at least one and at most
`left + 1` attempts are made, consecutively numbered from `attempt`; a
backoff sleep separates every pair of consecutive attempts; every
non-final attempt failed with a blocking error while the proxy was
enabled (so a non-blocking failure is never retried); an overall failure
means the final attempt raised; and a blocking failure with proxy enabled
and budget remaining is always followed by the next attempt. -/
abbrev retry_loop_spec (proxy : Bool) (oracle : Nat → AttemptOutcome)
    (attempt left : Nat) (t : FetchTrace) : Prop :=
  1 ≤ t.attempts.length ∧
  t.attempts.length ≤ left + 1 ∧
  t.attempts = List.range' attempt t.attempts.length ∧
  t.backoffs + 1 = t.attempts.length ∧
  (∀ i ∈ t.attempts, i ≠ attempt + t.attempts.length - 1 →
    ∃ e, oracle i = .failure e ∧ is_blocked_error e = true ∧ proxy = true) ∧
  (t.result = none → ∃ e, oracle (attempt + t.attempts.length - 1) = .failure e) ∧
  (∀ i ∈ t.attempts, (∃ e, oracle i = .failure e ∧ is_blocked_error e = true) →
    proxy = true → i < attempt + left → (i + 1) ∈ t.attempts)

lemma run_attempts_aux_spec (proxy : Bool) (oracle : Nat → AttemptOutcome) :
    ∀ left attempt,
      retry_loop_spec proxy oracle attempt left
        (run_attempts_aux proxy oracle attempt left) := by
  intro left
  induction left with
  | zero =>
    intro attempt
    cases ho : oracle attempt with
    | success sts =>
      have ht : run_attempts_aux proxy oracle attempt 0 = ⟨some sts, [attempt], 0⟩ := by
        simp [run_attempts_aux, ho]
      rw [ht]
      refine ⟨by simp, by simp, rfl, rfl, ?_, ?_, ?_⟩
      · intro i hi hne
        rcases List.mem_singleton.mp hi with rfl
        simp at hne
      · intro h
        exact absurd h (by simp)
      · intro i hi hex hpx hlt
        rcases List.mem_singleton.mp hi with rfl
        omega
    | failure e =>
      have ht : run_attempts_aux proxy oracle attempt 0 = ⟨none, [attempt], 0⟩ := by
        simp [run_attempts_aux, ho]
      rw [ht]
      refine ⟨by simp, by simp, rfl, rfl, ?_, ?_, ?_⟩
      · intro i hi hne
        rcases List.mem_singleton.mp hi with rfl
        simp at hne
      · intro _
        refine ⟨e, ?_⟩
        have he : attempt + [attempt].length - 1 = attempt := by simp
        rw [he]
        exact ho
      · intro i hi hex hpx hlt
        rcases List.mem_singleton.mp hi with rfl
        omega
  | succ left ih =>
    intro attempt
    cases ho : oracle attempt with
    | success sts =>
      have ht : run_attempts_aux proxy oracle attempt (left + 1) =
          ⟨some sts, [attempt], 0⟩ := by
        simp [run_attempts_aux, ho]
      rw [ht]
      refine ⟨by simp, by simp, rfl, rfl, ?_, ?_, ?_⟩
      · intro i hi hne
        rcases List.mem_singleton.mp hi with rfl
        simp at hne
      · intro h
        exact absurd h (by simp)
      · intro i hi hex hpx hlt
        rcases List.mem_singleton.mp hi with rfl
        rcases hex with ⟨e', he'⟩
        rw [ho] at he'
        exact absurd he' (by simp)
    | failure e =>
      by_cases hbp : (is_blocked_error e && proxy) = true
      · have ht : run_attempts_aux proxy oracle attempt (left + 1) =
            ⟨(run_attempts_aux proxy oracle (attempt + 1) left).result,
             attempt :: (run_attempts_aux proxy oracle (attempt + 1) left).attempts,
             (run_attempts_aux proxy oracle (attempt + 1) left).backoffs + 1⟩ := by
          simp only [run_attempts_aux, ho]
          rw [if_pos hbp]
        obtain ⟨h1, h2, h3, h4, h5, h6, h7⟩ := ih (attempt + 1)
        rw [ht]
        have hparts : is_blocked_error e = true ∧ proxy = true := by
          simpa using hbp
        have hblocked := hparts.1
        have hproxy := hparts.2
        refine ⟨by simp, by simp; omega, ?_, by simp [Nat.add_comm] ; omega, ?_, ?_, ?_⟩
        · show attempt :: (run_attempts_aux proxy oracle (attempt + 1) left).attempts =
            List.range' attempt (attempt :: (run_attempts_aux proxy oracle (attempt + 1) left).attempts).length
          have hr : List.range' attempt
              ((run_attempts_aux proxy oracle (attempt + 1) left).attempts.length + 1) =
              attempt :: List.range' (attempt + 1)
                (run_attempts_aux proxy oracle (attempt + 1) left).attempts.length := rfl
          simp only [List.length_cons, hr]
          rw [← h3]
        · intro i hi hne
          simp only [List.length_cons] at hne
          rcases List.mem_cons.mp hi with rfl | hi2
          · exact ⟨e, ho, hblocked, hproxy⟩
          · apply h5 i hi2
            omega
        · intro hres
          rcases h6 hres with ⟨e', he'⟩
          refine ⟨e', ?_⟩
          have hidx : attempt + (attempt ::
              (run_attempts_aux proxy oracle (attempt + 1) left).attempts).length - 1 =
              attempt + 1 + (run_attempts_aux proxy oracle (attempt + 1) left).attempts.length - 1 := by
            simp only [List.length_cons]
            omega
          rw [hidx]
          exact he'
        · intro i hi hex hpx hlt
          rcases List.mem_cons.mp hi with rfl | hi2
          · apply List.mem_cons_of_mem
            rw [h3]
            exact head_mem_range' (i + 1) _ h1
          · apply List.mem_cons_of_mem
            exact h7 i hi2 hex hpx (by omega)
      · have ht : run_attempts_aux proxy oracle attempt (left + 1) =
            ⟨none, [attempt], 0⟩ := by
          simp only [run_attempts_aux, ho]
          rw [if_neg hbp]
        rw [ht]
        refine ⟨by simp, by simp, rfl, rfl, ?_, ?_, ?_⟩
        · intro i hi hne
          rcases List.mem_singleton.mp hi with rfl
          simp at hne
        · intro _
          refine ⟨e, ?_⟩
          have he : attempt + [attempt].length - 1 = attempt := by simp
          rw [he]
          exact ho
        · intro i hi hex hpx hlt
          rcases List.mem_singleton.mp hi with rfl
          rcases hex with ⟨e', he', hbl⟩
          rw [ho] at he'
          cases he'
          exact absurd (by simp [hbl, hpx]) hbp

lemma max_retries_pos (cfg : FetchConfig) : 1 ≤ max_retries cfg := by
  unfold max_retries decodo_proxy_max_retries
  split
  · have h := le_max_left (1 : Int) cfg.decodo_max_retries_env
    omega
  · exact le_refl 1

lemma cycle_fetch_fields (cfg : FetchConfig) (cl : Classifier)
    (oracle : Nat → AttemptOutcome) (w : Option String) :
    (fetch_and_process_statuses cfg cl oracle w).attempts =
        (run_attempts cfg oracle).attempts ∧
      (fetch_and_process_statuses cfg cl oracle w).backoffs =
        (run_attempts cfg oracle).backoffs ∧
      ((fetch_and_process_statuses cfg cl oracle w).fetch_ok = false ↔
        (run_attempts cfg oracle).result = none) ∧
      ((run_attempts cfg oracle).result = none →
        (fetch_and_process_statuses cfg cl oracle w).watermark = w) := by
  unfold fetch_and_process_statuses
  cases hr : (run_attempts cfg oracle).result with
  | none => simp [hr]
  | some statuses =>
    by_cases he : statuses.isEmpty
    · simp [hr, he]
    · simp only [hr, he, if_false]
      cases herr : (process_batch cl statuses.reverse).error with
      | some e => simp [herr]
      | none => simp [herr]

/-- C6: For every fetch cycle, a fetch failure classified as blocking (by
the 403/429/rate-limit/CAPTCHA/WAF indicators in the error text) is
retried — with a fresh proxy session (egress identity) and a backoff sleep
between consecutive attempts — as long as the proxy is enabled and the
configured maximum attempt count `max_retries` is not exhausted, while a
failure not classified as blocking (or any failure with the proxy
disabled) is never retried: attempts are consecutively numbered from 1,
at most `max_retries` are made, every non-final attempt was a blocking
failure with the proxy enabled, a blocking failure below the bound is
always followed by the next attempt, and when the cycle ends in failure
the final attempt raised and the watermark is left unchanged. -/
theorem blocking_retry_policy (cfg : FetchConfig) (cl : Classifier)
    (oracle : Nat → AttemptOutcome) (w : Option String) :
    1 ≤ (fetch_and_process_statuses cfg cl oracle w).attempts.length ∧
      (fetch_and_process_statuses cfg cl oracle w).attempts.length ≤ max_retries cfg ∧
      (fetch_and_process_statuses cfg cl oracle w).attempts =
        List.range' 1 (fetch_and_process_statuses cfg cl oracle w).attempts.length ∧
      (fetch_and_process_statuses cfg cl oracle w).backoffs + 1 =
        (fetch_and_process_statuses cfg cl oracle w).attempts.length ∧
      (∀ i ∈ (fetch_and_process_statuses cfg cl oracle w).attempts,
        i ≠ (fetch_and_process_statuses cfg cl oracle w).attempts.length →
        ∃ e, oracle i = .failure e ∧ is_blocked_error e = true ∧
          cfg.proxy_enabled = true ∧ i < max_retries cfg) ∧
      (∀ i ∈ (fetch_and_process_statuses cfg cl oracle w).attempts,
        (∃ e, oracle i = .failure e ∧ is_blocked_error e = true) →
        cfg.proxy_enabled = true → i < max_retries cfg →
        (i + 1) ∈ (fetch_and_process_statuses cfg cl oracle w).attempts) ∧
      ((fetch_and_process_statuses cfg cl oracle w).fetch_ok = false →
        (∃ e, oracle
          ((fetch_and_process_statuses cfg cl oracle w).attempts.length) = .failure e) ∧
        (fetch_and_process_statuses cfg cl oracle w).watermark = w) := by
  obtain ⟨ha, hb, hok, hw⟩ := cycle_fetch_fields cfg cl oracle w
  have hrw : run_attempts cfg oracle =
      run_attempts_aux cfg.proxy_enabled oracle 1 (max_retries cfg - 1) := rfl
  obtain ⟨h1, h2, h3, h4, h5, h6, h7⟩ :=
    run_attempts_aux_spec cfg.proxy_enabled oracle (max_retries cfg - 1) 1
  have hmax := max_retries_pos cfg
  rw [hrw] at ha hb hok hw
  refine ⟨?_, ?_, ?_, ?_, ?_, ?_, ?_⟩
  · rw [ha]
    exact h1
  · rw [ha]
    omega
  · rw [ha]
    exact h3
  · rw [ha, hb]
    exact h4
  · rw [ha]
    intro i hi hne
    have hmem := mem_range'_bounds _ _ _ (h3 ▸ hi)
    obtain ⟨e, he, hbl, hpx⟩ := h5 i hi (by omega)
    exact ⟨e, he, hbl, hpx, by omega⟩
  · rw [ha]
    intro i hi hex hpx hlt
    exact h7 i hi hex hpx (by omega)
  · intro hfail
    have hres := hok.mp hfail
    constructor
    · rw [ha]
      obtain ⟨e, he⟩ := h6 hres
      refine ⟨e, ?_⟩
      have hidx : 1 + (run_attempts_aux cfg.proxy_enabled oracle 1
          (max_retries cfg - 1)).attempts.length - 1 =
          (run_attempts_aux cfg.proxy_enabled oracle 1
            (max_retries cfg - 1)).attempts.length := by
        omega
      rw [← hidx]
      exact he
    · exact hw hres

/-- Concrete instantiation of `blocking_retry_policy`: a proxy-enabled
configuration with a blocking 429 failure on the first attempt. -/
theorem blocking_retry_policy_witness :
    1 ≤ (fetch_and_process_statuses ⟨true, 3⟩
          ⟨fun _ => .failed, fun _ => .failed, fun _ => .failed⟩
          (fun n => if n = 1 then .failure "HTTP 429 rate limit" else .success [])
          none).attempts.length ∧
      (fetch_and_process_statuses ⟨true, 3⟩
          ⟨fun _ => .failed, fun _ => .failed, fun _ => .failed⟩
          (fun n => if n = 1 then .failure "HTTP 429 rate limit" else .success [])
          none).attempts.length ≤ max_retries ⟨true, 3⟩ :=
  ⟨(blocking_retry_policy ⟨true, 3⟩
      ⟨fun _ => .failed, fun _ => .failed, fun _ => .failed⟩
      (fun n => if n = 1 then .failure "HTTP 429 rate limit" else .success [])
      none).1,
   (blocking_retry_policy ⟨true, 3⟩
      ⟨fun _ => .failed, fun _ => .failed, fun _ => .failed⟩
      (fun n => if n = 1 then .failure "HTTP 429 rate limit" else .success [])
      none).2.1⟩
